import Mathlib

/-!
Verification of the pigeonhole cryptographic core: a shallow embedding of the
AEAD key ladder (`AesGcmKey`, `AesGcmRatchetingKey`), the `EncryptedChunk`
wire codec, the file chunker, and the zeroizing allocator, with theorems
settling the specification's claims about them.

Bytes are modelled as `Nat` (values below 256 where produced by the code),
byte strings as `List Nat`, `u32`/`u64` as `Nat` with explicit `% 2^32` /
`% 2^64` where machine-integer wrap matters.  External cryptographic
primitives (HKDF-SHA512 from the `hkdf` crate, AES-256-GCM from the
`aes_gcm` crate) are modelled as executable abstract functions with the
structural properties the claims depend on (fixed output sizes, tag binding
key/nonce/ciphertext, seal/open inversion); the repository's own code is
translated line by line against those models.
-/

set_option maxRecDepth 40000

deriving instance DecidableEq for Except

namespace Pigeonhole

/-- Error values surfaced by the embedded code, covering the variants of
`error.rs` and of `crypto/aead/mod.rs` that the modelled code paths
reference. -/
inductive Err where
  | invalidEncryptionType : Nat → Err
  | invalidChunkDeriveError : Err
  | aeadError : Err
  | parseKeyIndexError : Err
  | parseFileIdError : Err
  | parseChunkIdError : Err
  | ioInvalidData : Err
  deriving DecidableEq, Repr

/-- Outcome of running a Rust function: a normal `Result` value, a panic
(out-of-bounds slice index, `split_at` past the end, ...), or divergence of
a loop.  Panics and divergence are distinct from `Err` returns. -/
inductive RustResult (α : Type) where
  | ok : α → RustResult α
  | err : Err → RustResult α
  | panicked : RustResult α
  | diverged : RustResult α
  deriving DecidableEq, Repr

/-- Little-endian encoding of `n` into `w` bytes, as `u32::to_le_bytes` /
`u64::to_le_bytes` produce. -/
def toLeBytes (w : Nat) (n : Nat) : List Nat :=
  (List.range w).map (fun i => n / 256 ^ i % 256)

/-- Little-endian decoding of a byte string, as `u32::from_le_bytes` /
`u64::from_le_bytes` consume it. -/
def fromLeBytes (bs : List Nat) : Nat :=
  bs.foldr (fun b acc => b + 256 * acc) 0

/-- One absorption step of the executable stand-in hash used to model the
external HKDF-SHA512 and AES-GCM primitives (a Fowler-Noll-Vo style mixing
step over a 61-bit prime field). -/
def mixStep (acc b : Nat) : Nat :=
  (acc * 1099511628211 + b + 1) % 2305843009213693951

/-- Absorb a byte string into the stand-in hash state, length-prefixed for
domain separation between adjacent inputs. -/
def absorbList (acc : Nat) (bs : List Nat) : Nat :=
  bs.foldl mixStep (mixStep acc bs.length)

/-- Models the `hkdf` crate's HKDF-SHA512 extract-then-expand with 64-byte
output, as invoked by `AesGcmKey::derive_key_bytes`: a deterministic
function of `(salt, ikm, info)` producing 64 bytes.  The hash itself is an
abstract executable stand-in; the claims under verification are structural
(round trips, field propagation, monotonicity), not statements about
SHA-512 values. -/
def hkdfSha512 (salt ikm info : List Nat) : List Nat :=
  (List.range 64).map
    (fun i => mixStep (absorbList (absorbList (absorbList 0 salt) ikm) info) i % 256)

/-- `EncryptionType` of `crypto/aead/mod.rs`: the AEAD algorithm tag. -/
inductive EncryptionType where
  | AesGcm : EncryptionType
  | XChaCha20Poly1305 : EncryptionType
  deriving DecidableEq, Repr

/-- `impl From<EncryptionType> for u8`. -/
def EncryptionType.toU8 : EncryptionType → Nat
  | .AesGcm => 0
  | .XChaCha20Poly1305 => 1

/-- `impl TryFrom<u8> for EncryptionType`: 0 and 1 map into the closed set,
anything else is `InvalidEncryptionType(value)`. -/
def EncryptionType.tryFromU8 (value : Nat) : Except Err EncryptionType :=
  match value with
  | 0 => .ok .AesGcm
  | 1 => .ok .XChaCha20Poly1305
  | _ => .error (.invalidEncryptionType value)

/-- `EncryptedChunk` of `crypto/aead/mod.rs`.  A `Uuid` is its 16-byte
big-endian representation (`Uuid::as_bytes`), so `file_id : List Nat` of
length 16 for well-formed values. -/
structure EncryptedChunk where
  encryption_type : EncryptionType
  key_index : Nat
  file_id : List Nat
  chunk_id : Nat
  encrypted_data : List Nat
  deriving DecidableEq, Repr

/-- `EncryptedChunk::to_bytes`: tag byte, then `key_index` as 4 LE bytes,
then the 16 `file_id` bytes, then `chunk_id` as 8 LE bytes, then the
payload. -/
def EncryptedChunk.to_bytes (c : EncryptedChunk) : List Nat :=
  [c.encryption_type.toU8] ++ toLeBytes 4 c.key_index ++ c.file_id
    ++ toLeBytes 8 c.chunk_id ++ c.encrypted_data

/-- `EncryptedChunk::parse`, translated with the source's actual slice
indices: the tag is read at byte 0, `key_index` from bytes 1..5,
`file_id` from bytes 1..17, `chunk_id` from bytes 17..25, and the payload
from byte 25 on.  Rust's slice indexing panics when the input is shorter
than the slice bound, so those cases yield `.panicked`; `Uuid::from_slice`
on an exactly-16-byte slice always succeeds, so the `map_err` branches of
the source are unreachable. -/
def EncryptedChunk.parse (encrypted_chunk : List Nat) : RustResult EncryptedChunk :=
  match encrypted_chunk with
  | [] => .panicked
  | t :: rest =>
    match EncryptionType.tryFromU8 t with
    | .error e => .err e
    | .ok encryption_type =>
      if rest.length < 4 then .panicked
      else
        let key_index := fromLeBytes (rest.take 4)
        if rest.length < 16 then .panicked
        else
          let file_id := rest.take 16
          if rest.length < 24 then .panicked
          else
            let chunk_id := fromLeBytes ((rest.drop 16).take 8)
            let encrypted_data := rest.drop 24
            .ok ⟨encryption_type, key_index, file_id, chunk_id, encrypted_data⟩

/-- `NONCE_SIZE` of `crypto/aead/aes_gcm/mod.rs`. -/
def NONCE_SIZE : Nat := 12

/-- `AES_GCM_KEY_NAME = "aesgcm seed"` as bytes. -/
def AES_GCM_KEY_NAME : List Nat := [97, 101, 115, 103, 99, 109, 32, 115, 101, 101, 100]

/-- `AES_GCM_RATCHET_NAME = "aesgcm ratchet"` as bytes. -/
def AES_GCM_RATCHET_NAME : List Nat :=
  [97, 101, 115, 103, 99, 109, 32, 114, 97, 116, 99, 104, 101, 116]

/-- Keystream of the modelled AES-256-GCM cipher: `len` bytes determined by
the key and the nonce (domain-separated from the tag by the offset 256).
Stands in for the `aes_gcm` crate's CTR keystream. -/
def gcmKeystream (key nonce : List Nat) (len : Nat) : List Nat :=
  (List.range len).map (fun i => mixStep (absorbList (absorbList 0 key) nonce) (i + 256) % 256)

/-- Authentication tag of the modelled AES-256-GCM cipher: 16 bytes
determined by the key, the nonce and the ciphertext, as the GCM tag is. -/
def gcmTag (key nonce cipher_text : List Nat) : List Nat :=
  (List.range 16).map
    (fun i => mixStep (absorbList (absorbList (absorbList 0 key) nonce) cipher_text) i % 256)

/-- Models `Aes256Gcm::encrypt` of the `aes_gcm` crate: the ciphertext is
the plaintext XOR-masked with the keystream, followed by the 16-byte tag,
so its length is the plaintext length plus 16. -/
def aesGcmSeal (key nonce plain_text : List Nat) : List Nat :=
  let cipher_text := List.zipWith Nat.xor plain_text (gcmKeystream key nonce plain_text.length)
  cipher_text ++ gcmTag key nonce cipher_text

/-- Models `Aes256Gcm::decrypt` of the `aes_gcm` crate: split off the
trailing 16-byte tag, verify it against the key/nonce/ciphertext, and
unmask; inputs shorter than the tag or with a wrong tag fail with the
opaque AEAD error. -/
def aesGcmOpen (key nonce data : List Nat) : Except Err (List Nat) :=
  if data.length < 16 then .error .aeadError
  else
    let cipher_text := data.take (data.length - 16)
    let tag := data.drop (data.length - 16)
    if tag = gcmTag key nonce cipher_text then
      .ok (List.zipWith Nat.xor cipher_text (gcmKeystream key nonce cipher_text.length))
    else .error .aeadError

/-- `AesGcmKey` of `crypto/aead/aes_gcm/mod.rs`: 64 bytes of key material. -/
structure AesGcmKey where
  full_key : List Nat
  deriving DecidableEq, Repr

/-- `AesGcmKey::encryption_key`: the first 32 bytes. -/
def AesGcmKey.encryption_key (k : AesGcmKey) : List Nat :=
  k.full_key.take 32

/-- `AesGcmKey::chain_key`: bytes 32..64. -/
def AesGcmKey.chain_key (k : AesGcmKey) : List Nat :=
  k.full_key.drop 32

/-- `AesGcmKey::derive_key_bytes`: HKDF-SHA512 with the given salt, input
key material and info, expanded to 64 bytes.  Expanding to 64 bytes never
exceeds HKDF's 255-block limit, so the source's `Result` is always `Ok`. -/
def AesGcmKey.derive_key_bytes (ikm : List Nat) (salt : List Nat) (info : List Nat) : AesGcmKey :=
  ⟨hkdfSha512 salt ikm info⟩

/-- `AesGcmKey::encrypt` (`crypto/aead/aes_gcm/mod.rs` lines 64-73): the
source draws the 12 random nonce bytes from `rand::thread_rng`; the model
takes the drawn nonce as an explicit argument and seals with the
encryption half of the key. -/
def AesGcmKey.encrypt (k : AesGcmKey) (nonce : List Nat) (data : List Nat) :
    List Nat × List Nat :=
  (nonce, aesGcmSeal k.encryption_key nonce data)

/-- `AesGcmKey::decrypt` (`crypto/aead/aes_gcm/mod.rs` lines 75-79). -/
def AesGcmKey.decrypt (k : AesGcmKey) (nonce : List Nat) (cipher_text : List Nat) :
    Except Err (List Nat) :=
  aesGcmOpen k.encryption_key nonce cipher_text

/-- `AesGcmRatchetingKey` of
`crypto/aead/aes_gcm/aes_gcm_ratcheting_key.rs`: key material plus the
`(key_index : u32, file_id : Uuid, chunk_id : u64)` triple. -/
structure AesGcmRatchetingKey where
  key : AesGcmKey
  key_index : Nat
  file_id : List Nat
  chunk_id : Nat
  deriving DecidableEq, Repr

/-- `AesGcmRatchetingKey::next_key`: HKDF with the ratchet label over the
chain half, empty info; `key_index` and `file_id` are copied and
`chunk_id` is `self.chunk_id + 1` — a `u64` addition, which wraps modulo
`2^64` under release-profile semantics. -/
def AesGcmRatchetingKey.next_key (k : AesGcmRatchetingKey) : AesGcmRatchetingKey :=
  { key := AesGcmKey.derive_key_bytes k.key.chain_key AES_GCM_RATCHET_NAME []
    key_index := k.key_index
    file_id := k.file_id
    chunk_id := (k.chunk_id + 1) % 2 ^ 64 }

/-- `AesGcmRatchetingKey::is_key_for`: all three identifiers match. -/
def AesGcmRatchetingKey.is_key_for (k : AesGcmRatchetingKey) (c : EncryptedChunk) : Bool :=
  k.key_index == c.key_index && k.file_id == c.file_id && k.chunk_id == c.chunk_id

/-- `AesGcmRatchetingKey::can_ratchet_to`: same `key_index` and `file_id`,
strictly smaller `chunk_id`. -/
def AesGcmRatchetingKey.can_ratchet_to (k : AesGcmRatchetingKey) (c : EncryptedChunk) : Bool :=
  k.key_index == c.key_index && k.file_id == c.file_id && decide (k.chunk_id < c.chunk_id)

/-- The `while !next_key.is_key_for(..)` loop inside the trait-default
`RatchetingAeadKey::ratchet_to` (`crypto/aead/mod.rs` lines 66-69),
embedded with a fuel bound on the number of remaining iterations; `none`
means the loop has not finished within the allotted fuel. -/
def ratchetLoop : Nat → AesGcmRatchetingKey → EncryptedChunk → Option AesGcmRatchetingKey
  | fuel, k, c =>
    if k.is_key_for c then some k
    else
      match fuel with
      | 0 => none
      | fuel + 1 => ratchetLoop fuel k.next_key c

/-- `RatchetingAeadKey::ratchet_to` (`crypto/aead/mod.rs` lines 64-74): if
`can_ratchet_to` fails, return `InvalidChunkDerive`; otherwise step
`next_key` starting from `self.next_key()` until `is_key_for` holds.
`c.chunk_id` iterations of fuel always suffice for the source loop to
terminate on well-formed (`u64`-ranged) inputs; a run that would exceed it
is reported as `.diverged`, modelling the source loop spinning. -/
def AesGcmRatchetingKey.ratchet_to (k : AesGcmRatchetingKey) (c : EncryptedChunk) :
    RustResult AesGcmRatchetingKey :=
  if k.can_ratchet_to c then
    match ratchetLoop c.chunk_id k.next_key c with
    | some k2 => .ok k2
    | none => .diverged
  else .err .invalidChunkDeriveError

/-- `AesGcmEncryptedChunk` of
`crypto/aead/aes_gcm/aes_gcm_encrypted_chunk.rs`: the parsed form of an
AES-GCM chunk, nonce split from ciphertext. -/
structure AesGcmEncryptedChunk where
  key_index : Nat
  file_id : List Nat
  chunk_id : Nat
  nonce : List Nat
  cipher_text : List Nat
  deriving DecidableEq, Repr

/-- `impl TryFrom<EncryptedChunk> for AesGcmEncryptedChunk`: reject a
non-AES-GCM tag with `InvalidEncryptionType`, then
`encrypted_data.split_at(NONCE_SIZE)` — which panics when
`encrypted_data` is shorter than 12 bytes. -/
def AesGcmEncryptedChunk.tryFromChunk (data : EncryptedChunk) :
    RustResult AesGcmEncryptedChunk :=
  if data.encryption_type ≠ EncryptionType.AesGcm then
    .err (.invalidEncryptionType data.encryption_type.toU8)
  else if data.encrypted_data.length < NONCE_SIZE then .panicked
  else
    .ok ⟨data.key_index, data.file_id, data.chunk_id,
      data.encrypted_data.take NONCE_SIZE, data.encrypted_data.drop NONCE_SIZE⟩

/-- `impl From<AesGcmEncryptedChunk> for EncryptedChunk` together with
`AesGcmEncryptedChunk::encryption_data`: the wire chunk whose
`encrypted_data` is `nonce ‖ cipher_text`. -/
def AesGcmEncryptedChunk.toEncryptedChunk (data : AesGcmEncryptedChunk) : EncryptedChunk :=
  ⟨.AesGcm, data.key_index, data.file_id, data.chunk_id, data.nonce ++ data.cipher_text⟩

/-- `AesGcmRatchetingKey::encrypt`
(`crypto/aead/aes_gcm/aes_gcm_ratcheting_key.rs` lines 79-85): seal the
data under the key's encryption half with a freshly drawn nonce (passed
explicitly here), build the wire chunk carrying the key's identifiers, and
also return `next_key`. -/
def AesGcmRatchetingKey.encrypt (k : AesGcmRatchetingKey) (nonce : List Nat)
    (data : List Nat) : EncryptedChunk × AesGcmRatchetingKey :=
  let sealed := aesGcmSeal k.key.encryption_key nonce data
  (AesGcmEncryptedChunk.toEncryptedChunk ⟨k.key_index, k.file_id, k.chunk_id, nonce, sealed⟩,
    k.next_key)

/-- `AesGcmRatchetingKey::decrypt`
(`crypto/aead/aes_gcm/aes_gcm_ratcheting_key.rs` lines 87-100), translated
faithfully: the ratcheted key is bound to the local `key` exactly as in the
source, and — as in the source — the AEAD call that follows uses
`self.key`, not the bound `key`. -/
def AesGcmRatchetingKey.decrypt (self : AesGcmRatchetingKey) (data : EncryptedChunk) :
    RustResult (List Nat) :=
  let keyRes : RustResult AesGcmRatchetingKey :=
    if self.is_key_for data then .ok self else self.ratchet_to data
  match keyRes with
  | .err e => .err e
  | .panicked => .panicked
  | .diverged => .diverged
  | .ok _key =>
    match AesGcmEncryptedChunk.tryFromChunk data with
    | .err e => .err e
    | .panicked => .panicked
    | .diverged => .diverged
    | .ok parsed_data =>
      match AesGcmKey.decrypt self.key parsed_data.nonce parsed_data.cipher_text with
      | .ok plain_text => .ok plain_text
      | .error e => .err e

/-- `impl Iterator for AesGcmRatchetingKey`
(`crypto/aead/aes_gcm/aes_gcm_ratcheting_key.rs` lines 103-112): `next`
returns `Some(self.next_key())` (`next_key` cannot fail, see
`derive_key_bytes`) and never reassigns `self`, so the iterator state after
the call is the unchanged receiver. -/
def AesGcmRatchetingKey.iterNext (self : AesGcmRatchetingKey) :
    Option AesGcmRatchetingKey × AesGcmRatchetingKey :=
  (some self.next_key, self)

/-- Run the `Iterator` implementation `n` times from state `k`, collecting
the yielded items and the final iterator state. -/
def iterRun : Nat → AesGcmRatchetingKey → List (Option AesGcmRatchetingKey) × AesGcmRatchetingKey
  | 0, k => ([], k)
  | n + 1, k =>
    let step := k.iterNext
    let rest := iterRun n step.2
    (step.1 :: rest.1, rest.2)

/-- `CHUNK_SIZE` of `file.rs` in production builds (`cfg(not(test))`). -/
def CHUNK_SIZE : Nat := 1024

/-- Is a byte a UTF-8 continuation byte (`0x80..=0xBF`)? -/
def isCont (b : Nat) : Bool := 128 ≤ b && b ≤ 191

/-- Executable UTF-8 validity check (RFC 3629 table), modelling the
validation that `Read::read_to_string` performs on the bytes read from one
`take(CHUNK_SIZE)` window: any ill-formed or truncated sequence makes the
read fail with an `InvalidData` I/O error. -/
def validUtf8 : List Nat → Bool
  | [] => true
  | b :: rest =>
    if b < 128 then validUtf8 rest
    else if 194 ≤ b && b ≤ 223 then
      match rest with
      | c1 :: rest2 => isCont c1 && validUtf8 rest2
      | [] => false
    else if b == 224 then
      match rest with
      | c1 :: c2 :: rest2 => (160 ≤ c1 && c1 ≤ 191) && isCont c2 && validUtf8 rest2
      | _ => false
    else if (225 ≤ b && b ≤ 236) || b == 238 || b == 239 then
      match rest with
      | c1 :: c2 :: rest2 => isCont c1 && isCont c2 && validUtf8 rest2
      | _ => false
    else if b == 237 then
      match rest with
      | c1 :: c2 :: rest2 => (128 ≤ c1 && c1 ≤ 159) && isCont c2 && validUtf8 rest2
      | _ => false
    else if b == 240 then
      match rest with
      | c1 :: c2 :: c3 :: rest2 =>
        (144 ≤ c1 && c1 ≤ 191) && isCont c2 && isCont c3 && validUtf8 rest2
      | _ => false
    else if 241 ≤ b && b ≤ 243 then
      match rest with
      | c1 :: c2 :: c3 :: rest2 => isCont c1 && isCont c2 && isCont c3 && validUtf8 rest2
      | _ => false
    else if b == 244 then
      match rest with
      | c1 :: c2 :: c3 :: rest2 =>
        (128 ≤ c1 && c1 ≤ 143) && isCont c2 && isCont c3 && validUtf8 rest2
      | _ => false
    else false

/-- The chunker (`BufReader::next` of `buf_reader.rs` driven by
`File::chunk` of `file.rs`): each `next` call reads up to `CHUNK_SIZE`
bytes of the remaining file through `read_to_string`, which fails with an
`InvalidData` I/O error unless the bytes form valid UTF-8; a zero-byte
read ends the iteration, and `File::chunk` propagates the first error.
The file contents are the explicit byte list. -/
def chunkFile (bytes : List Nat) : Except Err (List (List Nat)) :=
  if bytes.isEmpty then .ok []
  else
    let chunk := bytes.take CHUNK_SIZE
    if validUtf8 chunk then
      match chunkFile (bytes.drop CHUNK_SIZE) with
      | .ok rest => .ok (chunk :: rest)
      | .error e => .error e
    else .error .ioInvalidData
termination_by bytes.length
decreasing_by
  rename_i hne
  cases bytes with
  | nil => simp at hne
  | cons a l => simp [CHUNK_SIZE]; omega

/-- Observable events of a `ZeroizeAllocator::dealloc` call, in program
order: the zero-write over the freed region, then the delegation to the
wrapped platform allocator's `dealloc`. -/
inductive AllocEvent where
  | zeroWrite : Nat → AllocEvent
  | innerDealloc : AllocEvent
  deriving DecidableEq, Repr

/-- Models `Zeroize for [u8]` of the `zeroize` crate: a volatile write of
zero over every byte of the slice. -/
def zeroizeSlice (region : List Nat) : List Nat :=
  region.map (fun _ => 0)

/-- `ZeroizeAllocator::dealloc` (`zeroize_allocator.rs` lines 75-85): the
freed region — `layout.size()` bytes starting at `ptr`, modelled as the
byte list `region` — is zeroized first, and only then is the inner
allocator's `dealloc` invoked (in non-test builds unconditionally).
Returns the region contents after the call and the ordered event trace. -/
def ZeroizeAllocator.dealloc (region : List Nat) : List Nat × List AllocEvent :=
  let zeroed := zeroizeSlice region
  (zeroed, [AllocEvent.zeroWrite region.length, AllocEvent.innerDealloc])

/-- Concrete 16-byte file id used by witnesses and counterexamples. -/
def exFileId : List Nat := List.range 16

/-- Concrete ratcheting key at chunk position 0 used by witnesses and
counterexamples. -/
def exKey : AesGcmRatchetingKey := ⟨⟨List.range 64⟩, 0, exFileId, 0⟩

/-- Concrete 12-byte nonce used by witnesses and counterexamples. -/
def exNonce : List Nat := List.replicate 12 7

/-- Concrete plaintext used by witnesses and counterexamples. -/
def exMsg : List Nat := [72, 105]

lemma length_gcmKeystream (key nonce : List Nat) (len : Nat) :
    (gcmKeystream key nonce len).length = len := by
  simp [gcmKeystream]

lemma length_gcmTag (key nonce ct : List Nat) : (gcmTag key nonce ct).length = 16 := by
  simp [gcmTag]

lemma xor_zip_cancel (pt ks : List Nat) (h : ks.length = pt.length) :
    List.zipWith Nat.xor (List.zipWith Nat.xor pt ks) ks = pt := by
  induction pt generalizing ks with
  | nil => simp
  | cons a l ih =>
    cases ks with
    | nil => simp at h
    | cons b t =>
      simp only [List.zipWith_cons_cons]
      have hx : Nat.xor (Nat.xor a b) b = a := Nat.xor_cancel_right b a
      rw [hx, ih t (by simpa using h)]

lemma aesGcmOpen_aesGcmSeal (key nonce pt : List Nat) :
    aesGcmOpen key nonce (aesGcmSeal key nonce pt) = .ok pt := by
  unfold aesGcmSeal aesGcmOpen
  have hct : (List.zipWith Nat.xor pt (gcmKeystream key nonce pt.length)).length = pt.length := by
    rw [List.length_zipWith, length_gcmKeystream, min_self]
  have hlen :
      (List.zipWith Nat.xor pt (gcmKeystream key nonce pt.length)
        ++ gcmTag key nonce (List.zipWith Nat.xor pt (gcmKeystream key nonce pt.length))).length
      = pt.length + 16 := by
    rw [List.length_append, hct, length_gcmTag]
  rw [hlen]
  have h16 : ¬ pt.length + 16 < 16 := by omega
  rw [if_neg h16]
  have hsub : pt.length + 16 - 16 =
      (List.zipWith Nat.xor pt (gcmKeystream key nonce pt.length)).length := by omega
  rw [hsub, List.take_left, List.drop_left, if_pos rfl, hct,
    xor_zip_cancel pt _ (length_gcmKeystream key nonce pt.length)]

/-- C1: For every plaintext `m` of length at most 1024 bytes and every
`RatchetingKey` `k`, if `k.encrypt(m)` returns the pair `(c, next)` (with
whatever 12-byte nonce the RNG drew), then `k.decrypt(c)` succeeds and
returns `m`: decryption inverts encryption under the same
`(key_index, file_id, chunk_id)`. -/
theorem c1_decrypt_inverts_encrypt (k : AesGcmRatchetingKey) (nonce m : List Nat)
    (hn : nonce.length = 12) (hm : m.length ≤ 1024) :
    k.decrypt (k.encrypt nonce m).1 = .ok m := by
  unfold AesGcmRatchetingKey.encrypt AesGcmRatchetingKey.decrypt
  simp only [AesGcmEncryptedChunk.toEncryptedChunk]
  have hkf : k.is_key_for
      ⟨.AesGcm, k.key_index, k.file_id, k.chunk_id,
        nonce ++ aesGcmSeal k.key.encryption_key nonce m⟩ = true := by
    simp [AesGcmRatchetingKey.is_key_for]
  rw [if_pos hkf]
  unfold AesGcmEncryptedChunk.tryFromChunk
  have hslen : (nonce ++ aesGcmSeal k.key.encryption_key nonce m).length = m.length + 28 := by
    rw [List.length_append, hn]
    unfold aesGcmSeal
    rw [List.length_append, List.length_zipWith, length_gcmKeystream, min_self, length_gcmTag]
    omega
  simp only [ne_eq, not_true_eq_false, if_false, ite_not]
  rw [hslen]
  have h12 : ¬ m.length + 28 < NONCE_SIZE := by simp [NONCE_SIZE]
  rw [if_neg h12]
  simp only [NONCE_SIZE]
  rw [List.take_left' hn, List.drop_left' hn]
  unfold AesGcmKey.decrypt
  rw [aesGcmOpen_aesGcmSeal]

/-- C1 witness: the round trip at a concrete key, nonce and message. -/
theorem c1_decrypt_inverts_encrypt_witness :
    exNonce.length = 12 ∧ exMsg.length ≤ 1024 ∧
    exKey.decrypt (exKey.encrypt exNonce exMsg).1 = .ok exMsg :=
  ⟨by decide, by decide,
    c1_decrypt_inverts_encrypt exKey exNonce exMsg (by decide) (by decide)⟩

/-- C2: the failing input evaluated.  `exKey` sits at position 0; the chunk
is sealed by the position-1 key of the same chain (`exKey.next_key`).
`decrypt` does ratchet forward (the `ratchet_to` branch is taken and
succeeds), but the source then opens with `self`'s key material — the
bound ratcheted `key` is unused — so the tag check fails and the call
returns the AEAD error instead of the plaintext.  The second conjunct
shows the ratcheted key's material does open the same nonce/ciphertext to
the original plaintext, which is what the claim (and the trait contract)
require. -/
theorem c2_decrypt_ignores_ratcheted_key :
    exKey.decrypt ((exKey.next_key).encrypt exNonce exMsg).1 = RustResult.err Err.aeadError
    ∧ exKey.ratchet_to ((exKey.next_key).encrypt exNonce exMsg).1 =
        RustResult.ok exKey.next_key
    ∧ AesGcmKey.decrypt exKey.next_key.key exNonce
        ((((exKey.next_key).encrypt exNonce exMsg).1.encrypted_data).drop 12) =
        Except.ok exMsg := by
  refine ⟨by decide, by decide, by decide⟩

/-- Concrete well-formed `EncryptedChunk` on which the codec round trip
fails. -/
def c3Chunk : EncryptedChunk := ⟨.AesGcm, 1, List.range 16, 2, [9, 9, 9]⟩

/-- C3: the failing input evaluated.  `to_bytes` writes `key_index` at
bytes 1..5, `file_id` at 5..21, `chunk_id` at 21..29 and the payload from
29, but `parse` reads `file_id` from bytes 1..17 and `chunk_id` from
17..25 and the payload from 25 — it never skips the 4 `key_index` bytes —
so `parse(to_bytes(c))` returns a chunk whose `file_id` starts with the
`key_index` encoding, whose `chunk_id` mixes `file_id` tail bytes with the
real `chunk_id`, and whose payload has 4 stray `chunk_id` bytes prepended:
the round trip does not hold. -/
theorem c3_parse_to_bytes_mismatch :
    EncryptedChunk.parse c3Chunk.to_bytes ≠ RustResult.ok c3Chunk
    ∧ EncryptedChunk.parse c3Chunk.to_bytes =
        RustResult.ok ⟨.AesGcm, 1, [1, 0, 0, 0, 0, 1, 2, 3, 4, 5, 6, 7, 8, 9, 10, 11],
          8842513676, [0, 0, 0, 0, 9, 9, 9]⟩ := by
  refine ⟨by decide, by decide⟩

/-- C4: the failing inputs evaluated.  On inputs shorter than the header,
`parse`'s slice indexing panics (index out of bounds) before any of the
`map_err`-wrapped conversions can fail, so no typed `ParseError` is
returned: the empty input and a 20-byte input panic, and — because
`parse`'s actual offsets end at byte 25 — a 28-byte input (shorter than
the 29-byte header) even succeeds rather than erroring. -/
theorem c4_parse_short_input_panics :
    EncryptedChunk.parse [] = RustResult.panicked
    ∧ EncryptedChunk.parse (List.replicate 20 0) = RustResult.panicked
    ∧ EncryptedChunk.parse (List.replicate 28 0) =
        RustResult.ok ⟨.AesGcm, 0, List.replicate 16 0, 0, List.replicate 3 0⟩ := by
  refine ⟨by decide, by decide, by decide⟩

lemma next_key_chunk_id_of_lt (k : AesGcmRatchetingKey) (h : k.chunk_id + 1 < 2 ^ 64) :
    k.next_key.chunk_id = k.chunk_id + 1 := by
  show (k.chunk_id + 1) % 2 ^ 64 = k.chunk_id + 1
  exact Nat.mod_eq_of_lt h

lemma ratchetLoop_reaches (c : EncryptedChunk) (hc : c.chunk_id < 2 ^ 64) :
    ∀ (fuel : Nat) (k : AesGcmRatchetingKey), k.key_index = c.key_index →
      k.file_id = c.file_id → k.chunk_id ≤ c.chunk_id → c.chunk_id - k.chunk_id ≤ fuel →
      ∃ k2, ratchetLoop fuel k c = some k2 ∧ k2.chunk_id = c.chunk_id ∧
        k2.key_index = c.key_index ∧ k2.file_id = c.file_id := by
  intro fuel
  induction fuel with
  | zero =>
    intro k h1 h2 h3 h4
    have he : k.chunk_id = c.chunk_id := by omega
    refine ⟨k, ?_, he, h1, h2⟩
    unfold ratchetLoop
    simp [AesGcmRatchetingKey.is_key_for, h1, h2, he]
  | succ f ih =>
    intro k h1 h2 h3 h4
    by_cases he : k.chunk_id = c.chunk_id
    · refine ⟨k, ?_, he, h1, h2⟩
      unfold ratchetLoop
      simp [AesGcmRatchetingKey.is_key_for, h1, h2, he]
    · have hlt : k.chunk_id < c.chunk_id := lt_of_le_of_ne h3 he
      have hkf : ¬ k.is_key_for c = true := by
        simp [AesGcmRatchetingKey.is_key_for, he]
      have hnext : k.next_key.chunk_id = k.chunk_id + 1 :=
        next_key_chunk_id_of_lt k (by omega)
      obtain ⟨k2, hloop, hp1, hp2, hp3⟩ :=
        ih k.next_key h1 h2 (by omega) (by omega)
      refine ⟨k2, ?_, hp1, hp2, hp3⟩
      rw [ratchetLoop, if_neg hkf]
      exact hloop

/-- C5: `ratchet_to(c)` succeeds iff `self.key_index == c.key_index &&
self.file_id == c.file_id && self.chunk_id < c.chunk_id`; when the
condition fails it returns the `InvalidChunkDerive` error, and when it
succeeds the returned key has `chunk_id` equal to `c.chunk_id` (with
`key_index` and `file_id` preserved). -/
theorem c5_ratchet_to_succeeds_iff (k : AesGcmRatchetingKey) (c : EncryptedChunk)
    (hc : c.chunk_id < 2 ^ 64) :
    ((∃ k2, k.ratchet_to c = .ok k2) ↔
      (k.key_index = c.key_index ∧ k.file_id = c.file_id ∧ k.chunk_id < c.chunk_id))
    ∧ (¬ (k.key_index = c.key_index ∧ k.file_id = c.file_id ∧ k.chunk_id < c.chunk_id) →
        k.ratchet_to c = .err .invalidChunkDeriveError)
    ∧ (∀ k2, k.ratchet_to c = .ok k2 →
        k2.chunk_id = c.chunk_id ∧ k2.key_index = k.key_index ∧ k2.file_id = k.file_id) := by
  by_cases hcond : k.key_index = c.key_index ∧ k.file_id = c.file_id ∧ k.chunk_id < c.chunk_id
  · obtain ⟨h1, h2, h3⟩ := hcond
    have hcan : k.can_ratchet_to c = true := by
      simp [AesGcmRatchetingKey.can_ratchet_to, h1, h2, h3]
    have hnext : k.next_key.chunk_id = k.chunk_id + 1 :=
      next_key_chunk_id_of_lt k (by omega)
    obtain ⟨k2, hloop, hp1, hp2, hp3⟩ :=
      ratchetLoop_reaches c hc c.chunk_id k.next_key h1 h2 (by omega) (by omega)
    have hrt : k.ratchet_to c = .ok k2 := by
      unfold AesGcmRatchetingKey.ratchet_to
      rw [if_pos hcan, hloop]
    refine ⟨⟨fun _ => ⟨h1, h2, h3⟩, fun _ => ⟨k2, hrt⟩⟩,
      fun hn => absurd ⟨h1, h2, h3⟩ hn, ?_⟩
    intro k3 hk3
    rw [hrt] at hk3
    cases hk3
    exact ⟨hp1, by rw [hp2, h1], by rw [hp3, h2]⟩
  · have hcan : ¬ k.can_ratchet_to c = true := by
      simp only [AesGcmRatchetingKey.can_ratchet_to, Bool.and_eq_true, beq_iff_eq,
        decide_eq_true_eq]
      intro hcontra
      exact hcond ⟨hcontra.1.1, hcontra.1.2, hcontra.2⟩
    have hrt : k.ratchet_to c = .err .invalidChunkDeriveError := by
      unfold AesGcmRatchetingKey.ratchet_to
      rw [if_neg hcan]
    refine ⟨⟨?_, fun h => absurd h hcond⟩, fun _ => hrt, ?_⟩
    · rintro ⟨k2, hk2⟩
      rw [hrt] at hk2
      cases hk2
    · intro k3 hk3
      rw [hrt] at hk3
      cases hk3

/-- Concrete chunk two ratchet steps ahead of `exKey`, for the C5
witness. -/
def c5Chunk : EncryptedChunk := ⟨.AesGcm, 0, exFileId, 2, []⟩

/-- C5 witness: the theorem applied at `exKey` (position 0) and a chunk at
position 2 of the same chain. -/
theorem c5_ratchet_to_succeeds_iff_witness :
    c5Chunk.chunk_id < 2 ^ 64 ∧
    (((∃ k2, exKey.ratchet_to c5Chunk = .ok k2) ↔
        (exKey.key_index = c5Chunk.key_index ∧ exKey.file_id = c5Chunk.file_id ∧
          exKey.chunk_id < c5Chunk.chunk_id))
      ∧ (¬ (exKey.key_index = c5Chunk.key_index ∧ exKey.file_id = c5Chunk.file_id ∧
            exKey.chunk_id < c5Chunk.chunk_id) →
          exKey.ratchet_to c5Chunk = .err .invalidChunkDeriveError)
      ∧ (∀ k2, exKey.ratchet_to c5Chunk = .ok k2 →
          k2.chunk_id = c5Chunk.chunk_id ∧ k2.key_index = exKey.key_index ∧
            k2.file_id = exKey.file_id)) :=
  ⟨by decide, c5_ratchet_to_succeeds_iff exKey c5Chunk (by decide)⟩

/-- Concrete ratcheting key at `chunk_id = u64::MAX`, on which `next_key`'s
`u64` increment wraps. -/
def c6Key : AesGcmRatchetingKey := ⟨⟨List.range 64⟩, 3, exFileId, 2 ^ 64 - 1⟩

/-- C6 counterexample: at `chunk_id = u64::MAX` the source's
`self.chunk_id + 1` is a wrapping `u64` addition, so `next_key` returns a
key at `chunk_id = 0` — not `chunk_id + 1`, and a strictly lower value
than the current one. -/
theorem c6_next_key_wraps_at_u64_max :
    c6Key.next_key.chunk_id = 0 ∧ c6Key.next_key.chunk_id ≠ c6Key.chunk_id + 1 ∧
      c6Key.next_key.chunk_id < c6Key.chunk_id := by
  refine ⟨by decide, by decide, by decide⟩

/-- C6 (amended): `next_key` copies `key_index` and `file_id` unchanged and
sets `chunk_id = (k.chunk_id + 1) mod 2^64`; whenever the current
`chunk_id` is below `u64::MAX` this is exactly `k.chunk_id + 1`, strictly
greater than `k.chunk_id`, so a ratchet chain that stays below `u64::MAX`
has immutable `key_index`/`file_id` and a `chunk_id` that strictly
increases by one per step. -/
theorem c6_next_key_increments (k : AesGcmRatchetingKey) (h : k.chunk_id + 1 < 2 ^ 64) :
    k.next_key.key_index = k.key_index ∧ k.next_key.file_id = k.file_id ∧
      k.next_key.chunk_id = (k.chunk_id + 1) % 2 ^ 64 ∧
      k.next_key.chunk_id = k.chunk_id + 1 ∧ k.chunk_id < k.next_key.chunk_id := by
  have hnext := next_key_chunk_id_of_lt k h
  exact ⟨rfl, rfl, rfl, hnext, by omega⟩

/-- C6 witness: the amended theorem applied at the concrete `exKey`. -/
theorem c6_next_key_increments_witness :
    exKey.chunk_id + 1 < 2 ^ 64 ∧
    (exKey.next_key.key_index = exKey.key_index ∧ exKey.next_key.file_id = exKey.file_id ∧
      exKey.next_key.chunk_id = (exKey.chunk_id + 1) % 2 ^ 64 ∧
      exKey.next_key.chunk_id = exKey.chunk_id + 1 ∧
      exKey.chunk_id < exKey.next_key.chunk_id) :=
  ⟨by decide, c6_next_key_increments exKey (by decide)⟩

/-- C7: the failing input evaluated.  The chunker reads each
`CHUNK_SIZE`-byte window through `read_to_string`, which rejects bytes
that are not valid UTF-8, so a one-byte file containing `0xFF` makes the
first `next` call fail with an `InvalidData` I/O error and `File::chunk`
propagates it: no chunk list is produced, the file is not reproduced, and
the chunk count is not `ceil(size / 1024)` (which the claim requires to be
1 here). -/
theorem c7_chunker_rejects_non_utf8_file :
    chunkFile [255] = Except.error Err.ioInvalidData ∧ (1 : Nat) = (1 + 1024 - 1) / 1024 := by
  constructor
  · rw [chunkFile]
    have ht : List.take CHUNK_SIZE [255] = [255] := by simp [CHUNK_SIZE]
    have hv : validUtf8 [255] = false := by decide
    simp only [List.isEmpty_cons, Bool.false_eq_true, if_false, ht, hv]
  · norm_num

/-- C8: every `dealloc` through the `ZeroizeAllocator` first overwrites all
`layout.size()` bytes of the freed region with zeros and only then invokes
the inner platform allocator's `dealloc`, so after freeing a pinned secret
the backing bytes are all zero. -/
theorem c8_dealloc_zeroizes_before_delegating (region : List Nat) :
    (ZeroizeAllocator.dealloc region).1 = List.replicate region.length 0 ∧
      (ZeroizeAllocator.dealloc region).2 =
        [AllocEvent.zeroWrite region.length, AllocEvent.innerDealloc] := by
  exact ⟨List.map_const' region 0, rfl⟩

/-- Concrete AES-GCM chunk matching `exKey` whose `encrypted_data` is
empty, i.e. shorter than the 12-byte nonce. -/
def c9ShortChunk : EncryptedChunk := ⟨.AesGcm, 0, exFileId, 0, []⟩

/-- C9 counterexample: on a matching key and an AES-GCM chunk whose
`encrypted_data` is shorter than 12 bytes, `decrypt` does not return an
error — `encrypted_data.split_at(NONCE_SIZE)` panics, so `decrypt` is not
total on all inputs below 12 + 16 bytes. -/
theorem c9_decrypt_panics_below_nonce_size :
    exKey.decrypt c9ShortChunk = RustResult.panicked := by
  decide

/-- C9 (amended): for an AES-GCM chunk matching the key whose
`encrypted_data` is at least 12 bytes but shorter than 12 + 16 bytes,
`decrypt` fails downstream by returning the AEAD error (the ciphertext
left after the nonce split is shorter than the 16-byte tag); for
`encrypted_data` shorter than 12 bytes the nonce split panics instead. -/
theorem c9_decrypt_errors_below_min_length (k : AesGcmRatchetingKey) (c : EncryptedChunk)
    (ht : c.encryption_type = .AesGcm) (hk : k.is_key_for c = true)
    (h1 : 12 ≤ c.encrypted_data.length) (h2 : c.encrypted_data.length < 28) :
    k.decrypt c = RustResult.err Err.aeadError := by
  unfold AesGcmRatchetingKey.decrypt
  rw [if_pos hk]
  unfold AesGcmEncryptedChunk.tryFromChunk
  rw [ht]
  simp only [ne_eq, not_true_eq_false, if_false, ite_not, NONCE_SIZE]
  rw [if_neg (by omega : ¬ c.encrypted_data.length < 12)]
  dsimp only
  have hopen : k.key.decrypt (List.take 12 c.encrypted_data) (List.drop 12 c.encrypted_data)
      = Except.error Err.aeadError := by
    unfold AesGcmKey.decrypt aesGcmOpen
    rw [if_pos (by rw [List.length_drop]; omega : (List.drop 12 c.encrypted_data).length < 16)]
  rw [hopen]

/-- Concrete AES-GCM chunk matching `exKey` with a 20-byte
`encrypted_data` (at least the nonce, shorter than nonce plus tag). -/
def c9MidChunk : EncryptedChunk := ⟨.AesGcm, 0, exFileId, 0, List.replicate 20 1⟩

/-- C9 witness: the amended theorem applied at `exKey` and a matching chunk
with 20 bytes of `encrypted_data`. -/
theorem c9_decrypt_errors_below_min_length_witness :
    c9MidChunk.encryption_type = .AesGcm ∧ exKey.is_key_for c9MidChunk = true ∧
      12 ≤ c9MidChunk.encrypted_data.length ∧ c9MidChunk.encrypted_data.length < 28 ∧
      exKey.decrypt c9MidChunk = RustResult.err Err.aeadError :=
  ⟨rfl, by decide, by decide, by decide,
    c9_decrypt_errors_below_min_length exKey c9MidChunk rfl (by decide) (by decide) (by decide)⟩

lemma iterRun_constant (k : AesGcmRatchetingKey) :
    ∀ n, iterRun n k = (List.replicate n (some k.next_key), k) := by
  intro n
  induction n with
  | zero => rfl
  | succ m ih =>
    show ((k.iterNext.1 :: (iterRun m k.iterNext.2).1, (iterRun m k.iterNext.2).2)) = _
    rw [show k.iterNext.2 = k from rfl, ih]
    rfl

/-- C10: each call of the `Iterator` implementation yields
`Some(self.next_key())` and leaves the iterator state unchanged, so over
any number of calls the iterator is a constant sequence of the single
successor key at `chunk_id = k.chunk_id + 1` rather than a strictly
increasing ratchet walk. -/
theorem c10_iterator_yields_constant_successor (k : AesGcmRatchetingKey) (n : Nat)
    (h : k.chunk_id + 1 < 2 ^ 64) :
    (iterRun n k).2 = k ∧ (iterRun n k).1 = List.replicate n (some k.next_key) ∧
      k.next_key.chunk_id = k.chunk_id + 1 := by
  rw [iterRun_constant k n]
  exact ⟨rfl, rfl, next_key_chunk_id_of_lt k h⟩

/-- C10 witness: three iterator calls from `exKey`. -/
theorem c10_iterator_yields_constant_successor_witness :
    exKey.chunk_id + 1 < 2 ^ 64 ∧
    ((iterRun 3 exKey).2 = exKey ∧
      (iterRun 3 exKey).1 = List.replicate 3 (some exKey.next_key) ∧
      exKey.next_key.chunk_id = exKey.chunk_id + 1) :=
  ⟨by decide, c10_iterator_yields_constant_successor exKey 3 (by decide)⟩

end Pigeonhole
